import Mathlib

/-!
Verification of the EmbodyAI_uav core components: the rigid-body
frame-transform library (`src/common.py`) and the lidar-based local
obstacle-avoidance controller (`src/uav_tools/flight_controls.py`).

The Python floating-point code is shallowly embedded over `ℝ`:
`math.atan2 y x` is embedded as the argument of the complex number
`x + y*I`, `math.asin` as `Real.arcsin`, `math.degrees` as
multiplication by `180 / π`.  The avoidance loop's synchronous
sensor/motion calls are embedded by explicit state passing: the ranging
source is a function from poll index to an optional point cloud
(`none` embeds a raised sensor exception), and every motion command the
loop issues is recorded in an explicit trace.
-/

open Real Matrix

noncomputable section

/-- `math.degrees`: radians to degrees. -/
def degrees (x : ℝ) : ℝ := x * 180 / Real.pi

/-- `math.atan2 y x`, embedded as the principal argument of `x + y*I`. -/
def atan2 (y x : ℝ) : ℝ := Complex.arg (Complex.ofReal x + Complex.ofReal y * Complex.I)

/-- `common.euler_to_quaternion(roll, pitch, yaw)` (angles in radians).
Returns the components in the source's order `[x, y, z, w]`. -/
def euler_to_quaternion (roll pitch yaw : ℝ) : ℝ × ℝ × ℝ × ℝ :=
  let cy := Real.cos (yaw * 0.5)
  let sy := Real.sin (yaw * 0.5)
  let cp := Real.cos (pitch * 0.5)
  let sp := Real.sin (pitch * 0.5)
  let cr := Real.cos (roll * 0.5)
  let sr := Real.sin (roll * 0.5)
  (cy * cp * sr - sy * sp * cr,
   sy * cp * cr + cy * sp * sr,
   sy * cp * sr - cy * sp * cr,
   cy * cp * cr + sy * sp * sr)

/-- `common.quaternion_to_rotation_matrix(QW, QX, QY, QZ)`. -/
def quaternion_to_rotation_matrix (QW QX QY QZ : ℝ) : Matrix (Fin 3) (Fin 3) ℝ :=
  Matrix.of
    ![![1 - 2*(QY^2 + QZ^2), 2*(QX*QY - QZ*QW), 2*(QX*QZ + QY*QW)],
      ![2*(QX*QY + QZ*QW), 1 - 2*(QX^2 + QZ^2), 2*(QY*QZ - QX*QW)],
      ![2*(QX*QZ - QY*QW), 2*(QY*QZ + QX*QW), 1 - 2*(QX^2 + QY^2)]]

/-- `common.rotation_matrix_to_euler_angles(R)`, returning
`(roll, pitch, yaw)` in degrees. -/
def rotation_matrix_to_euler_angles (R : Matrix (Fin 3) (Fin 3) ℝ) : ℝ × ℝ × ℝ :=
  let pitch := Real.arcsin (-(R 2 0))
  if |R 2 0| ≠ 1 then
    (degrees (atan2 (R 2 1) (R 2 2)), degrees pitch, degrees (atan2 (R 1 0) (R 0 0)))
  else
    (degrees (atan2 (-(R 1 2)) (R 1 1)), degrees pitch, degrees 0)

/-- The composite of claim C1: Euler angles → quaternion (whose `w` is
returned last and supplied as `QW`) → rotation matrix → Euler angles in
degrees. -/
def euler_roundtrip (roll pitch yaw : ℝ) : ℝ × ℝ × ℝ :=
  let q := euler_to_quaternion roll pitch yaw
  rotation_matrix_to_euler_angles (quaternion_to_rotation_matrix q.2.2.2 q.1 q.2.1 q.2.2.1)

/-- The rotation matrix of a `+90°` pitch (rotation about the body `y` axis):
an orthonormal input lying exactly on the gimbal-lock singularity. -/
def gimbalR : Matrix (Fin 3) (Fin 3) ℝ :=
  Matrix.of ![![0, 0, 1], ![0, 1, 0], ![-1, 0, 0]]

/-- `common.calculate_camera_position(QW, QX, QY, QZ, TX, TY, TZ)`:
builds `R` from the quaternion and returns `-Rᵀ · T`. -/
def calculate_camera_position (QW QX QY QZ : ℝ) (T : Fin 3 → ℝ) : Fin 3 → ℝ :=
  -((quaternion_to_rotation_matrix QW QX QY QZ)ᵀ *ᵥ T)

/-- `common.calculate_camera_position_from_world(R_t, camera_position)`:
returns `-R_t · camera_position`. -/
def calculate_camera_position_from_world (R_t : Matrix (Fin 3) (Fin 3) ℝ)
    (camera_position : Fin 3 → ℝ) : Fin 3 → ℝ :=
  -(R_t *ᵥ camera_position)

/-- `common.rotation_matrix_to_quaternion(R)`: the trace-based branch
algorithm, returning `(QW, QX, QY, QZ)`.  The two nested `else` tests mirror
`np.argmax([R[0,0], R[1,1], R[2,2]])`, which returns the first index attaining
the maximum. -/
def rotation_matrix_to_quaternion (R : Matrix (Fin 3) (Fin 3) ℝ) : ℝ × ℝ × ℝ × ℝ :=
  let trace := R 0 0 + R 1 1 + R 2 2
  if 0 < trace then
    let S := Real.sqrt (trace + 1) * 2
    (0.25 * S, (R 2 1 - R 1 2) / S, (R 0 2 - R 2 0) / S, (R 1 0 - R 0 1) / S)
  else if R 0 0 ≥ R 1 1 ∧ R 0 0 ≥ R 2 2 then
    let S := Real.sqrt (1 + R 0 0 - R 1 1 - R 2 2) * 2
    ((R 2 1 - R 1 2) / S, 0.25 * S, (R 0 1 + R 1 0) / S, (R 0 2 + R 2 0) / S)
  else if R 1 1 ≥ R 2 2 then
    let S := Real.sqrt (1 + R 1 1 - R 0 0 - R 2 2) * 2
    ((R 0 2 - R 2 0) / S, (R 0 1 + R 1 0) / S, 0.25 * S, (R 1 2 + R 2 1) / S)
  else
    let S := Real.sqrt (1 + R 2 2 - R 0 0 - R 1 1) * 2
    ((R 1 0 - R 0 1) / S, (R 0 2 + R 2 0) / S, (R 1 2 + R 2 1) / S, 0.25 * S)

/-- One iteration of the point-cloud scan in
`flight_controls._get_nearest_obstacle_distance`: a point `(x, y, z)` is
considered when `x > 0.5 and abs(z) < 1.0`, and then lowers the running
minimum squared horizontal distance `x*x + y*y` when strictly smaller. -/
def obstacle_step (acc : ℝ) (p : ℝ × ℝ × ℝ) : ℝ :=
  if 0.5 < p.1 ∧ |p.2.2| < 1 then
    (if p.1^2 + p.2.1^2 < acc then p.1^2 + p.2.1^2 else acc)
  else acc

/-- `flight_controls._get_nearest_obstacle_distance` on a successfully
retrieved point cloud: scan starting from `max_range * max_range`, then the
square root of the result. -/
def get_nearest_obstacle_distance (points : List (ℝ × ℝ × ℝ)) (max_range : ℝ) : ℝ :=
  Real.sqrt (points.foldl obstacle_step (max_range * max_range))

/-- `_get_nearest_obstacle_distance` including its `try/except`: a failed
sensor query (embedded as `none`) returns the configured `max_range`. -/
def get_nearest_obstacle_distance_safe (query : Option (List (ℝ × ℝ × ℝ)))
    (max_range : ℝ) : ℝ :=
  match query with
  | none => max_range
  | some points => get_nearest_obstacle_distance points max_range

/-- A motion command issued by `move_with_local_avoidance`: an absolute
heading command (`set_yaw`), a bounded forward step from the advancing branch
(`move_forward(step_to_move)`), or the fixed detour advance issued right
after a successful avoidance turn (`move_forward(3.0)`). -/
inductive Cmd where
  | setYaw (deg : ℝ)
  | advance (d : ℝ)
  | reroute (d : ℝ)

/-- The per-invocation session state of `move_with_local_avoidance`:
progress so far (`distance_moved`), the index of the next ranging poll, and
the trace of motion commands issued so far. -/
structure AvState where
  moved : ℝ
  pollIdx : ℕ
  trace : List Cmd

/-- Terminal outcome of `move_with_local_avoidance`: the normal return
(`done`, reporting `distance_moved`), the give-up return after exhausting
turn attempts (`stuck`, reporting partial progress), or out of fuel (the
Python `while` loop can iterate without progress, so the embedding is
fuel-indexed). -/
inductive Outcome where
  | done (d : ℝ)
  | stuck (d : ℝ)
  | fuelOut

/-- The inner `for attempt in range(MAX_YAW_ATTEMPTS)` loop of
`move_with_local_avoidance`, with `attemptsLeft` counting down from 5.  The
commanded heading is `yaw0deg + 30` on **every** attempt: the source computes
`current_yaw` from `current_state`, the state snapshot captured once before
the outer loop, so the turn increment never accumulates.  After the turn it
re-polls with the default `max_range = 5.0`; `Sum.inl` = obstacle cleared
(issue the fixed 3 m detour and break back to the outer loop), `Sum.inr` =
attempts exhausted (return the stuck observation). -/
def turn_loop (source : ℕ → Option (List (ℝ × ℝ × ℝ))) (yaw0deg : ℝ) :
    ℕ → AvState → AvState ⊕ AvState
  | 0, s => Sum.inr s
  | n+1, s =>
    let s1 : AvState := ⟨s.moved, s.pollIdx, s.trace ++ [Cmd.setYaw (yaw0deg + 30)]⟩
    let d := get_nearest_obstacle_distance_safe (source s1.pollIdx) 5
    let s2 : AvState := ⟨s1.moved, s1.pollIdx + 1, s1.trace⟩
    if 3 ≤ d then Sum.inl ⟨s2.moved, s2.pollIdx, s2.trace ++ [Cmd.reroute 3]⟩
    else if n = 0 then Sum.inr s2
    else turn_loop source yaw0deg n s2

/-- The outer `while distance_moved < target_distance` loop of
`move_with_local_avoidance`, fuel-indexed.  Each iteration polls the ranging
source with `max_range = SAFETY_DISTANCE * 2 = 6.0`; below the safety
threshold `3.0` it runs the turn loop, otherwise it advances by
`min(MOVE_STEP, target_distance - distance_moved)` with `MOVE_STEP = 1.0`. -/
def avoid_loop (source : ℕ → Option (List (ℝ × ℝ × ℝ))) (target yaw0deg : ℝ) :
    ℕ → AvState → Outcome × AvState
  | 0, s => (Outcome.fuelOut, s)
  | fuel+1, s =>
    if s.moved < target then
      let d := get_nearest_obstacle_distance_safe (source s.pollIdx) 6
      let s1 : AvState := ⟨s.moved, s.pollIdx + 1, s.trace⟩
      if d < 3 then
        match turn_loop source yaw0deg 5 s1 with
        | Sum.inl s2 => avoid_loop source target yaw0deg fuel s2
        | Sum.inr s2 => (Outcome.stuck s2.moved, s2)
      else
        avoid_loop source target yaw0deg fuel
          ⟨s.moved + min 1 (target - s.moved), s1.pollIdx,
           s1.trace ++ [Cmd.advance (min 1 (target - s.moved))]⟩
    else (Outcome.done s.moved, s)

/-- `flight_controls.move_with_local_avoidance(target_distance)`: starts from
zero progress and an empty trace; the stale snapshot yaw `yaw0` (radians) is
converted to degrees with the source's literal `* 180 / 3.14159`. -/
def move_with_local_avoidance (source : ℕ → Option (List (ℝ × ℝ × ℝ)))
    (target yaw0 : ℝ) (fuel : ℕ) : Outcome × AvState :=
  avoid_loop source target (yaw0 * 180 / 3.14159) fuel ⟨0, 0, []⟩

/-- Distance contributed by a command when it is a bounded advancing step. -/
def advSize : Cmd → ℝ
  | Cmd.advance d => d
  | _ => 0

/-- Forward motion commanded by a command (advancing steps and detours). -/
def forwardSize : Cmd → ℝ
  | Cmd.advance d => d
  | Cmd.reroute d => d
  | _ => 0

/-- Whether a command is a turn (`set_yaw`) command. -/
def isTurn : Cmd → Bool
  | Cmd.setYaw _ => true
  | _ => false

/-- Whether a command is the post-turn detour advance. -/
def isReroute : Cmd → Bool
  | Cmd.reroute _ => true
  | _ => false

/-- Whether a command is a bounded advancing step. -/
def isAdvance : Cmd → Bool
  | Cmd.advance _ => true
  | _ => false

/-- Total distance of the bounded advancing steps in a trace. -/
def advTotal (l : List Cmd) : ℝ := (l.map advSize).sum

/-- Total forward motion commanded in a trace. -/
def forwardTotal (l : List Cmd) : ℝ := (l.map forwardSize).sum

/-- A ranging source whose every poll sees a single obstacle point 1 m
directly ahead, whatever the heading. -/
def alwaysObstacleSource : ℕ → Option (List (ℝ × ℝ × ℝ)) :=
  fun _ => some [(1, 0, 0)]

/-- A ranging source whose every poll succeeds with an empty cloud. -/
def emptyCloudSource : ℕ → Option (List (ℝ × ℝ × ℝ)) :=
  fun _ => some []

/-- A ranging source whose every poll raises (sensor failed). -/
def failSource : ℕ → Option (List (ℝ × ℝ × ℝ)) :=
  fun _ => none

end

theorem q2m_apply_00 (w x y z : ℝ) :
    quaternion_to_rotation_matrix w x y z 0 0 = 1 - 2*(y^2 + z^2) := rfl

theorem q2m_apply_01 (w x y z : ℝ) :
    quaternion_to_rotation_matrix w x y z 0 1 = 2*(x*y - z*w) := rfl

theorem q2m_apply_02 (w x y z : ℝ) :
    quaternion_to_rotation_matrix w x y z 0 2 = 2*(x*z + y*w) := rfl

theorem q2m_apply_10 (w x y z : ℝ) :
    quaternion_to_rotation_matrix w x y z 1 0 = 2*(x*y + z*w) := rfl

theorem q2m_apply_11 (w x y z : ℝ) :
    quaternion_to_rotation_matrix w x y z 1 1 = 1 - 2*(x^2 + z^2) := rfl

theorem q2m_apply_12 (w x y z : ℝ) :
    quaternion_to_rotation_matrix w x y z 1 2 = 2*(y*z - x*w) := rfl

theorem q2m_apply_20 (w x y z : ℝ) :
    quaternion_to_rotation_matrix w x y z 2 0 = 2*(x*z - y*w) := rfl

theorem q2m_apply_21 (w x y z : ℝ) :
    quaternion_to_rotation_matrix w x y z 2 1 = 2*(y*z + x*w) := rfl

theorem q2m_apply_22 (w x y z : ℝ) :
    quaternion_to_rotation_matrix w x y z 2 2 = 1 - 2*(x^2 + y^2) := rfl

theorem degrees_pi_div_two : degrees (Real.pi/2) = 90 := by
  rw [degrees]
  field_simp
  ring

theorem degrees_zero : degrees 0 = 0 := by
  rw [degrees]
  simp

/-- Claim C1 (code bug): at the concrete input `(roll, pitch, yaw) = (0, 0, π/2)`
— finite angles, pitch far from gimbal lock — the composition
`euler_to_quaternion` → `quaternion_to_rotation_matrix` → `rotation_matrix_to_euler_angles`
returns yaw `0°` and pitch `90°`, whereas the claim requires it to reproduce the
original `yaw = 90°` (within `1e-4` degrees) and `pitch = 0°`.  The deviation is
`90°`, far beyond tolerance: `euler_to_quaternion` attaches the yaw half-angle
sine to the quaternion's `y` component (a rotation about the pitch axis),
contradicting its own docstring's yaw-pitch-roll (Z-Y-X) convention. -/
theorem c1_roundtrip_bug :
    (euler_roundtrip 0 0 (Real.pi/2)).2.2 = 0 ∧
    (euler_roundtrip 0 0 (Real.pi/2)).2.1 = 90 ∧
    degrees (Real.pi/2) = 90 ∧
    ¬(|(euler_roundtrip 0 0 (Real.pi/2)).2.2 - degrees (Real.pi/2)| ≤ 1/10000) := by
  have h2 : Real.sqrt 2 * Real.sqrt 2 = 2 :=
    Real.mul_self_sqrt (by norm_num)
  have hq : euler_to_quaternion 0 0 (Real.pi/2) =
      (0, Real.sqrt 2/2, 0, Real.sqrt 2/2) := by
    have hhalf : Real.pi/2 * 0.5 = Real.pi/4 := by ring
    simp only [euler_to_quaternion, hhalf, zero_mul, Real.cos_zero, Real.sin_zero,
      Real.cos_pi_div_four, Real.sin_pi_div_four]
    norm_num
  have e20 : quaternion_to_rotation_matrix (Real.sqrt 2/2) 0 (Real.sqrt 2/2) 0 2 0 = -1 := by
    rw [q2m_apply_20]
    linear_combination (-(1:ℝ)/2) * h2
  have e12 : quaternion_to_rotation_matrix (Real.sqrt 2/2) 0 (Real.sqrt 2/2) 0 1 2 = 0 := by
    rw [q2m_apply_12]
    ring
  have e11 : quaternion_to_rotation_matrix (Real.sqrt 2/2) 0 (Real.sqrt 2/2) 0 1 1 = 1 := by
    rw [q2m_apply_11]
    norm_num
  have hout : euler_roundtrip 0 0 (Real.pi/2) =
      (degrees (atan2 0 1), degrees (Real.arcsin 1), degrees 0) := by
    rw [euler_roundtrip, hq]
    rw [rotation_matrix_to_euler_angles]
    rw [e20, e12, e11]
    rw [if_neg (by norm_num)]
    norm_num
  rw [hout, Real.arcsin_one, degrees_pi_div_two, degrees_zero]
  norm_num

/-- Claim C7: for every orthonormal rotation matrix `R` with `|R[2][0]| = 1`
(pitch exactly `±90°`), `rotation_matrix_to_euler_angles` takes the degenerate
branch, returning `yaw = 0` and `roll = atan2(-R[1][2], R[1][1])` in degrees;
moreover for every orthonormal input the `asin` argument stays in `[-1, 1]` and
the `atan2` of the branch actually evaluated never receives both arguments `0`
(the real-model rendering of "no division by zero or NaN"). -/
theorem c7_gimbal_lock (R : Matrix (Fin 3) (Fin 3) ℝ) (h : Rᵀ * R = 1) :
    |R 2 0| ≤ 1 ∧
    (|R 2 0| = 1 →
      (rotation_matrix_to_euler_angles R).2.2 = 0 ∧
      (rotation_matrix_to_euler_angles R).1 = degrees (atan2 (-(R 1 2)) (R 1 1)) ∧
      ¬(R 1 1 = 0 ∧ R 1 2 = 0)) ∧
    (|R 2 0| ≠ 1 →
      ¬(R 2 2 = 0 ∧ R 2 1 = 0) ∧ ¬(R 0 0 = 0 ∧ R 1 0 = 0)) := by
  have hij := Matrix.ext_iff.mpr h
  have hji := Matrix.ext_iff.mpr (Matrix.mul_eq_one_comm.mp h)
  have hcol0 := hij 0 0
  have hrow1 := hji 1 1
  have hrow2 := hji 2 2
  simp only [Matrix.mul_apply, Fin.sum_univ_three, Matrix.transpose_apply,
    Matrix.one_apply_eq] at hcol0 hrow1 hrow2
  have habs : |R 2 0| ≤ 1 := by
    rw [abs_le_one_iff_mul_self_le_one]
    nlinarith [mul_self_nonneg (R 0 0), mul_self_nonneg (R 1 0)]
  refine ⟨habs, ?_, ?_⟩
  · intro h1
    have hsq : R 2 0 * R 2 0 = 1 := by
      have := abs_mul_abs_self (R 2 0)
      rw [h1] at this
      linarith [this]
    have h10 : R 1 0 = 0 := by
      nlinarith [mul_self_nonneg (R 0 0), mul_self_nonneg (R 1 0)]
    refine ⟨?_, ?_, ?_⟩
    · rw [rotation_matrix_to_euler_angles, if_neg (by simp [h1]), degrees_zero]
    · rw [rotation_matrix_to_euler_angles, if_neg (by simp [h1])]
    · rintro ⟨ha, hb⟩
      rw [h10, ha, hb] at hrow1
      norm_num at hrow1
  · intro h1
    have hlt : |R 2 0| < 1 := lt_of_le_of_ne habs h1
    have hsq : R 2 0 * R 2 0 < 1 := by
      have := abs_mul_abs_self (R 2 0)
      nlinarith [abs_nonneg (R 2 0)]
    constructor
    · rintro ⟨ha, hb⟩
      rw [ha, hb] at hrow2
      nlinarith
    · rintro ⟨ha, hb⟩
      rw [ha, hb] at hcol0
      nlinarith

/-- Witness for C7: the concrete `+90°`-pitch matrix `gimbalR` is orthonormal,
sits at the gimbal-lock boundary `|R[2][0]| = 1`, and the function returns
`yaw = 0` on it. -/
theorem c7_gimbal_lock_witness :
    gimbalRᵀ * gimbalR = 1 ∧ |gimbalR 2 0| = 1 ∧
    (rotation_matrix_to_euler_angles gimbalR).2.2 = 0 := by
  have hR : gimbalRᵀ * gimbalR = 1 := by
    rw [← Matrix.ext_iff]
    intro i j
    fin_cases i <;> fin_cases j <;>
      simp [gimbalR, Matrix.mul_apply, Fin.sum_univ_three, Matrix.transpose_apply,
        Matrix.one_apply, Matrix.vecHead, Matrix.vecTail]
  have habs : |gimbalR 2 0| = 1 := by
    simp [gimbalR]
  exact ⟨hR, habs, ((c7_gimbal_lock gimbalR hR).2.1 habs).1⟩

theorem q2m_mul_transpose_self (w x y z : ℝ) (h : w^2 + x^2 + y^2 + z^2 = 1) :
    quaternion_to_rotation_matrix w x y z * (quaternion_to_rotation_matrix w x y z)ᵀ = 1 := by
  rw [← Matrix.ext_iff]
  intro i j
  fin_cases i <;> fin_cases j <;>
    simp [quaternion_to_rotation_matrix, Matrix.mul_apply, Fin.sum_univ_three,
      Matrix.transpose_apply, Matrix.one_apply, Matrix.vecHead, Matrix.vecTail]
  · linear_combination (4*(y^2 + z^2)) * h
  · linear_combination (-4*x*y) * h
  · linear_combination (-4*x*z) * h
  · linear_combination (-4*x*y) * h
  · linear_combination (4*(x^2 + z^2)) * h
  · linear_combination (-4*y*z) * h
  · linear_combination (-4*x*z) * h
  · linear_combination (-4*y*z) * h
  · linear_combination (4*(x^2 + y^2)) * h

/-- Claim C9: for every unit quaternion `q = (w, x, y, z)` with rotation matrix
`R = quaternion_to_rotation_matrix q` and every translation vector `T`,
`calculate_camera_position_from_world(R, calculate_camera_position(q, T))`
recovers `T` exactly: `T = -R · (-Rᵀ · T)`. -/
theorem c9_camera_world_inverse (w x y z : ℝ) (T : Fin 3 → ℝ)
    (h : w^2 + x^2 + y^2 + z^2 = 1) :
    calculate_camera_position_from_world (quaternion_to_rotation_matrix w x y z)
      (calculate_camera_position w x y z T) = T := by
  rw [calculate_camera_position_from_world, calculate_camera_position]
  rw [Matrix.mulVec_neg, neg_neg, Matrix.mulVec_mulVec,
    q2m_mul_transpose_self w x y z h, Matrix.one_mulVec]

/-- Witness for C9: the identity orientation `(w,x,y,z) = (1,0,0,0)` is a unit
quaternion, and the translation `(1, 2, 3)` is recovered exactly. -/
theorem c9_camera_world_inverse_witness :
    (1:ℝ)^2 + 0^2 + 0^2 + 0^2 = 1 ∧
    calculate_camera_position_from_world (quaternion_to_rotation_matrix 1 0 0 0)
      (calculate_camera_position 1 0 0 0 ![1, 2, 3]) = ![1, 2, 3] :=
  ⟨by norm_num, c9_camera_world_inverse 1 0 0 0 ![1, 2, 3] (by norm_num)⟩

theorem m2q_branch_pos (R : Matrix (Fin 3) (Fin 3) ℝ)
    (h1 : 0 < R 0 0 + R 1 1 + R 2 2) :
    rotation_matrix_to_quaternion R =
      (0.25 * (Real.sqrt (R 0 0 + R 1 1 + R 2 2 + 1) * 2),
       (R 2 1 - R 1 2) / (Real.sqrt (R 0 0 + R 1 1 + R 2 2 + 1) * 2),
       (R 0 2 - R 2 0) / (Real.sqrt (R 0 0 + R 1 1 + R 2 2 + 1) * 2),
       (R 1 0 - R 0 1) / (Real.sqrt (R 0 0 + R 1 1 + R 2 2 + 1) * 2)) := by
  simp only [rotation_matrix_to_quaternion]
  rw [if_pos h1]

theorem m2q_branch_x (R : Matrix (Fin 3) (Fin 3) ℝ)
    (h1 : ¬ 0 < R 0 0 + R 1 1 + R 2 2) (h2 : R 0 0 ≥ R 1 1 ∧ R 0 0 ≥ R 2 2) :
    rotation_matrix_to_quaternion R =
      ((R 2 1 - R 1 2) / (Real.sqrt (1 + R 0 0 - R 1 1 - R 2 2) * 2),
       0.25 * (Real.sqrt (1 + R 0 0 - R 1 1 - R 2 2) * 2),
       (R 0 1 + R 1 0) / (Real.sqrt (1 + R 0 0 - R 1 1 - R 2 2) * 2),
       (R 0 2 + R 2 0) / (Real.sqrt (1 + R 0 0 - R 1 1 - R 2 2) * 2)) := by
  simp only [rotation_matrix_to_quaternion]
  rw [if_neg h1, if_pos h2]

theorem m2q_branch_y (R : Matrix (Fin 3) (Fin 3) ℝ)
    (h1 : ¬ 0 < R 0 0 + R 1 1 + R 2 2) (h2 : ¬(R 0 0 ≥ R 1 1 ∧ R 0 0 ≥ R 2 2))
    (h3 : R 1 1 ≥ R 2 2) :
    rotation_matrix_to_quaternion R =
      ((R 0 2 - R 2 0) / (Real.sqrt (1 + R 1 1 - R 0 0 - R 2 2) * 2),
       (R 0 1 + R 1 0) / (Real.sqrt (1 + R 1 1 - R 0 0 - R 2 2) * 2),
       0.25 * (Real.sqrt (1 + R 1 1 - R 0 0 - R 2 2) * 2),
       (R 1 2 + R 2 1) / (Real.sqrt (1 + R 1 1 - R 0 0 - R 2 2) * 2)) := by
  simp only [rotation_matrix_to_quaternion]
  rw [if_neg h1, if_neg h2, if_pos h3]

theorem m2q_branch_z (R : Matrix (Fin 3) (Fin 3) ℝ)
    (h1 : ¬ 0 < R 0 0 + R 1 1 + R 2 2) (h2 : ¬(R 0 0 ≥ R 1 1 ∧ R 0 0 ≥ R 2 2))
    (h3 : ¬ R 1 1 ≥ R 2 2) :
    rotation_matrix_to_quaternion R =
      ((R 1 0 - R 0 1) / (Real.sqrt (1 + R 2 2 - R 0 0 - R 1 1) * 2),
       (R 0 2 + R 2 0) / (Real.sqrt (1 + R 2 2 - R 0 0 - R 1 1) * 2),
       (R 1 2 + R 2 1) / (Real.sqrt (1 + R 2 2 - R 0 0 - R 1 1) * 2),
       0.25 * (Real.sqrt (1 + R 2 2 - R 0 0 - R 1 1) * 2)) := by
  simp only [rotation_matrix_to_quaternion]
  rw [if_neg h1, if_neg h2, if_neg h3]

theorem sqrt_four_mul_sq (a : ℝ) : Real.sqrt (4*a^2) = 2*|a| := by
  rw [show (4*a^2 : ℝ) = (2*a)^2 by ring, Real.sqrt_sq_eq_abs, abs_mul]
  norm_num

/-- Claim C8: for every unit quaternion `q = (w, x, y, z)`, the composition
`quaternion_to_rotation_matrix` → `rotation_matrix_to_quaternion` returns
exactly `q` or `-q` (the quaternion double cover), where
`rotation_matrix_to_quaternion` uses the direct formula when `trace(R) > 0`
and otherwise the branch selected by the argmax of the diagonal. -/
theorem c8_double_cover (w x y z : ℝ) (h : w^2 + x^2 + y^2 + z^2 = 1) :
    rotation_matrix_to_quaternion (quaternion_to_rotation_matrix w x y z) = (w, x, y, z) ∨
    rotation_matrix_to_quaternion (quaternion_to_rotation_matrix w x y z) = (-w, -x, -y, -z) := by
  set A := quaternion_to_rotation_matrix w x y z with hA
  have e00 : A 0 0 = 1 - 2*(y^2 + z^2) := q2m_apply_00 w x y z
  have e01 : A 0 1 = 2*(x*y - z*w) := q2m_apply_01 w x y z
  have e02 : A 0 2 = 2*(x*z + y*w) := q2m_apply_02 w x y z
  have e10 : A 1 0 = 2*(x*y + z*w) := q2m_apply_10 w x y z
  have e11 : A 1 1 = 1 - 2*(x^2 + z^2) := q2m_apply_11 w x y z
  have e12 : A 1 2 = 2*(y*z - x*w) := q2m_apply_12 w x y z
  have e20 : A 2 0 = 2*(x*z - y*w) := q2m_apply_20 w x y z
  have e21 : A 2 1 = 2*(y*z + x*w) := q2m_apply_21 w x y z
  have e22 : A 2 2 = 1 - 2*(x^2 + y^2) := q2m_apply_22 w x y z
  have htr : A 0 0 + A 1 1 + A 2 2 = 4*w^2 - 1 := by
    rw [e00, e11, e22]
    linear_combination (-4) * h
  by_cases hpos : 0 < A 0 0 + A 1 1 + A 2 2
  · have hw0 : w ≠ 0 := by
      intro h0
      rw [htr, h0] at hpos
      norm_num at hpos
    rw [m2q_branch_pos A hpos]
    rw [e21, e12, e02, e20, e10, e01, htr]
    have hsq : Real.sqrt (4*w^2 - 1 + 1) = 2*|w| := by
      rw [show (4*w^2 - 1 + 1 : ℝ) = 4*w^2 by ring]
      exact sqrt_four_mul_sq w
    rw [hsq]
    rcases hw0.lt_or_lt with hw|hw
    · right
      rw [abs_of_neg hw]
      have hden : ((2:ℝ)*(-w)*2) ≠ 0 := by
        refine ne_of_gt ?_
        linarith
      simp only [Prod.mk.injEq]
      refine ⟨by ring, ?_, ?_, ?_⟩ <;>
        rw [div_eq_iff hden] <;> ring
    · left
      rw [abs_of_pos hw]
      have hden : ((2:ℝ)*w*2) ≠ 0 := by
        refine ne_of_gt ?_
        linarith
      simp only [Prod.mk.injEq]
      refine ⟨by ring, ?_, ?_, ?_⟩ <;>
        rw [div_eq_iff hden] <;> ring
  · by_cases hgx : y^2 ≤ x^2 ∧ z^2 ≤ x^2
    · have h2 : A 0 0 ≥ A 1 1 ∧ A 0 0 ≥ A 2 2 := by
        rw [e00, e11, e22]
        exact ⟨by linarith [hgx.1], by linarith [hgx.2]⟩
      have hx0 : x ≠ 0 := by
        intro h0
        have hx2 : x^2 = 0 := by
          rw [h0]
          norm_num
        have hy2 : y^2 = 0 := le_antisymm (hx2 ▸ hgx.1) (sq_nonneg y)
        have hz2 : z^2 = 0 := le_antisymm (hx2 ▸ hgx.2) (sq_nonneg z)
        apply hpos
        rw [htr]
        have hw2 : w^2 = 1 := by linarith [h, hx2, hy2, hz2]
        rw [hw2]
        norm_num
      rw [m2q_branch_x A hpos h2]
      rw [e21, e12, e01, e10, e02, e20, e00, e11, e22]
      have hterm : (1 + (1 - 2*(y^2 + z^2)) - (1 - 2*(x^2 + z^2)) - (1 - 2*(x^2 + y^2)) : ℝ)
          = 4*x^2 := by ring
      rw [hterm, sqrt_four_mul_sq]
      rcases hx0.lt_or_lt with hx|hx
      · right
        rw [abs_of_neg hx]
        have hden : ((2:ℝ)*(-x)*2) ≠ 0 := by
          refine ne_of_gt ?_
          linarith
        simp only [Prod.mk.injEq]
        refine ⟨?_, by ring, ?_, ?_⟩ <;>
          rw [div_eq_iff hden] <;> ring
      · left
        rw [abs_of_pos hx]
        have hden : ((2:ℝ)*x*2) ≠ 0 := by
          refine ne_of_gt ?_
          linarith
        simp only [Prod.mk.injEq]
        refine ⟨?_, by ring, ?_, ?_⟩ <;>
          rw [div_eq_iff hden] <;> ring
    · have h2 : ¬(A 0 0 ≥ A 1 1 ∧ A 0 0 ≥ A 2 2) := by
        rintro ⟨hc1, hc2⟩
        rw [e00, e11] at hc1
        rw [e00, e22] at hc2
        exact hgx ⟨by linarith, by linarith⟩
      by_cases hgy : z^2 ≤ y^2
      · have h3 : A 1 1 ≥ A 2 2 := by
          rw [e11, e22]
          linarith [hgy]
        have hy0 : y ≠ 0 := by
          intro h0
          have hy2 : y^2 = 0 := by
            rw [h0]
            norm_num
          have hz2 : z^2 = 0 := le_antisymm (hy2 ▸ hgy) (sq_nonneg z)
          refine hgx ⟨?_, ?_⟩
          · rw [hy2]
            exact sq_nonneg x
          · rw [hz2]
            exact sq_nonneg x
        rw [m2q_branch_y A hpos h2 h3]
        rw [e02, e20, e01, e10, e12, e21, e00, e11, e22]
        have hterm : (1 + (1 - 2*(x^2 + z^2)) - (1 - 2*(y^2 + z^2)) - (1 - 2*(x^2 + y^2)) : ℝ)
            = 4*y^2 := by ring
        rw [hterm, sqrt_four_mul_sq]
        rcases hy0.lt_or_lt with hy|hy
        · right
          rw [abs_of_neg hy]
          have hden : ((2:ℝ)*(-y)*2) ≠ 0 := by
            refine ne_of_gt ?_
            linarith
          simp only [Prod.mk.injEq]
          refine ⟨?_, ?_, by ring, ?_⟩ <;>
            rw [div_eq_iff hden] <;> ring
        · left
          rw [abs_of_pos hy]
          have hden : ((2:ℝ)*y*2) ≠ 0 := by
            refine ne_of_gt ?_
            linarith
          simp only [Prod.mk.injEq]
          refine ⟨?_, ?_, by ring, ?_⟩ <;>
            rw [div_eq_iff hden] <;> ring
      · have h3 : ¬ A 1 1 ≥ A 2 2 := by
          rw [e11, e22]
          intro hc
          exact hgy (by linarith)
        have hz0 : z ≠ 0 := by
          intro h0
          apply hgy
          rw [h0]
          simpa using sq_nonneg y
        rw [m2q_branch_z A hpos h2 h3]
        rw [e10, e01, e02, e20, e12, e21, e00, e11, e22]
        have hterm : (1 + (1 - 2*(x^2 + y^2)) - (1 - 2*(y^2 + z^2)) - (1 - 2*(x^2 + z^2)) : ℝ)
            = 4*z^2 := by ring
        rw [hterm, sqrt_four_mul_sq]
        rcases hz0.lt_or_lt with hz|hz
        · right
          rw [abs_of_neg hz]
          have hden : ((2:ℝ)*(-z)*2) ≠ 0 := by
            refine ne_of_gt ?_
            linarith
          simp only [Prod.mk.injEq]
          refine ⟨?_, ?_, ?_, by ring⟩ <;>
            rw [div_eq_iff hden] <;> ring
        · left
          rw [abs_of_pos hz]
          have hden : ((2:ℝ)*z*2) ≠ 0 := by
            refine ne_of_gt ?_
            linarith
          simp only [Prod.mk.injEq]
          refine ⟨?_, ?_, ?_, by ring⟩ <;>
            rw [div_eq_iff hden] <;> ring

/-- Witness for C8: the identity quaternion `(1, 0, 0, 0)` is a unit
quaternion and the round trip returns it up to sign. -/
theorem c8_double_cover_witness :
    (1:ℝ)^2 + 0^2 + 0^2 + 0^2 = 1 ∧
    (rotation_matrix_to_quaternion (quaternion_to_rotation_matrix 1 0 0 0) = ((1:ℝ), (0:ℝ), (0:ℝ), (0:ℝ)) ∨
     rotation_matrix_to_quaternion (quaternion_to_rotation_matrix 1 0 0 0) = (-(1:ℝ), -(0:ℝ), -(0:ℝ), -(0:ℝ))) :=
  ⟨by norm_num, c8_double_cover 1 0 0 0 (by norm_num)⟩

theorem foldr_min_init (b : ℝ) (L : List ℝ) :
    ∀ a : ℝ, L.foldr min (min b a) = min b (L.foldr min a) := by
  induction L with
  | nil => intro a; rfl
  | cons c L ih =>
    intro a
    rw [List.foldr_cons, List.foldr_cons, ih, min_left_comm]

theorem obstacle_foldl_eq (l : List (ℝ × ℝ × ℝ)) :
    ∀ a : ℝ, l.foldl obstacle_step a =
      ((l.filter (fun p => decide (0.5 < p.1 ∧ |p.2.2| < 1))).map
        (fun p => p.1^2 + p.2.1^2)).foldr min a := by
  induction l with
  | nil => intro a; rfl
  | cons p l ih =>
    intro a
    rw [List.foldl_cons]
    by_cases hp : 0.5 < p.1 ∧ |p.2.2| < 1
    · rw [List.filter_cons_of_pos (by simp only [decide_eq_true_eq]; exact hp),
        List.map_cons, List.foldr_cons]
      have hstep : obstacle_step a p = min (p.1^2 + p.2.1^2) a := by
        rw [obstacle_step, if_pos hp]
        rcases lt_or_ge (p.1^2 + p.2.1^2) a with h2|h2
        · rw [if_pos h2, min_eq_left h2.le]
        · rw [if_neg (not_lt.mpr h2), min_eq_right h2]
      rw [hstep, ih, foldr_min_init]
    · rw [List.filter_cons_of_neg (by simp only [decide_eq_true_eq]; exact hp)]
      have hstep : obstacle_step a p = a := by rw [obstacle_step, if_neg hp]
      rw [hstep, ih]

theorem sqrt_foldr_min (L : List ℝ) :
    ∀ a : ℝ, Real.sqrt (L.foldr min a) = (L.map Real.sqrt).foldr min (Real.sqrt a) := by
  induction L with
  | nil => intro a; rfl
  | cons c L ih =>
    intro a
    rw [List.foldr_cons, List.map_cons, List.foldr_cons]
    have hmono : Monotone Real.sqrt := fun u v huv => Real.sqrt_le_sqrt huv
    rw [hmono.map_min, ih a]

/-- Claim C4 (amended): `_get_nearest_obstacle_distance` considers exactly the
points with forward coordinate `x > 0.5` and vertical coordinate `|z| < 1.0`
— there is **no lateral bound** on `y` — and returns the minimum of the
configured maximum range and the horizontal distances `sqrt(x² + y²)` of those
points (a fold of `min` seeded with `max_range`, so the result is capped at
`max_range`); in particular it returns `max_range` when no point qualifies. -/
theorem c4_nearest_obstacle (points : List (ℝ × ℝ × ℝ)) (max_range : ℝ)
    (h : 0 ≤ max_range) :
    get_nearest_obstacle_distance points max_range =
      ((points.filter (fun p => decide (0.5 < p.1 ∧ |p.2.2| < 1))).map
        (fun p => Real.sqrt (p.1^2 + p.2.1^2))).foldr min max_range ∧
    ((points.filter (fun p => decide (0.5 < p.1 ∧ |p.2.2| < 1))) = [] →
      get_nearest_obstacle_distance points max_range = max_range) := by
  have hmain : get_nearest_obstacle_distance points max_range =
      ((points.filter (fun p => decide (0.5 < p.1 ∧ |p.2.2| < 1))).map
        (fun p => Real.sqrt (p.1^2 + p.2.1^2))).foldr min max_range := by
    rw [get_nearest_obstacle_distance, obstacle_foldl_eq, sqrt_foldr_min,
      Real.sqrt_mul_self h, List.map_map]
    rfl
  refine ⟨hmain, fun hf => ?_⟩
  rw [hmain, hf]
  rfl

/-- Claim C4 counterexample: for the single-point cloud `[(6, 0, 0)]` with
maximum range `5`, the point qualifies under the claim's filter (forward,
centered, level) with horizontal distance `6`, yet the function returns `5`,
not the minimum distance `6` over the qualifying points: the return value is
capped at the configured maximum range, which the claim does not allow. -/
theorem c4_counterexample :
    get_nearest_obstacle_distance [((6:ℝ), (0:ℝ), (0:ℝ))] 5 = 5 ∧
    ([((6:ℝ), (0:ℝ), (0:ℝ))].filter (fun p => decide (0.5 < p.1 ∧ |p.2.2| < 1))).map
      (fun p => Real.sqrt (p.1^2 + p.2.1^2)) = [6] ∧
    (5:ℝ) ≠ 6 := by
  refine ⟨?_, ?_, by norm_num⟩
  · rw [get_nearest_obstacle_distance, List.foldl_cons, List.foldl_nil]
    have hstep : obstacle_step ((5:ℝ)*5) ((6:ℝ), (0:ℝ), (0:ℝ)) = 5*5 := by
      rw [obstacle_step, if_pos (by norm_num), if_neg (by norm_num)]
    rw [hstep, Real.sqrt_mul_self (by norm_num)]
  · rw [List.filter_cons_of_pos (by simp only [decide_eq_true_eq]; norm_num),
      List.filter_nil, List.map_cons, List.map_nil]
    have hv : Real.sqrt (((6:ℝ), (0:ℝ), (0:ℝ)).1^2 + ((6:ℝ), (0:ℝ), (0:ℝ)).2.1^2) = 6 := by
      rw [show ((((6:ℝ), (0:ℝ), (0:ℝ)).1^2 + ((6:ℝ), (0:ℝ), (0:ℝ)).2.1^2 : ℝ)) = 6^2 by norm_num]
      exact Real.sqrt_sq (by norm_num)
    rw [hv]

theorem turn_loop_succ (source : ℕ → Option (List (ℝ × ℝ × ℝ))) (yaw0deg : ℝ)
    (n : ℕ) (s : AvState) :
    turn_loop source yaw0deg (n+1) s =
      if 3 ≤ get_nearest_obstacle_distance_safe (source s.pollIdx) 5 then
        Sum.inl ⟨s.moved, s.pollIdx + 1,
          (s.trace ++ [Cmd.setYaw (yaw0deg + 30)]) ++ [Cmd.reroute 3]⟩
      else if n = 0 then
        Sum.inr ⟨s.moved, s.pollIdx + 1, s.trace ++ [Cmd.setYaw (yaw0deg + 30)]⟩
      else turn_loop source yaw0deg n
        ⟨s.moved, s.pollIdx + 1, s.trace ++ [Cmd.setYaw (yaw0deg + 30)]⟩ := rfl

theorem turn_loop_zero (source : ℕ → Option (List (ℝ × ℝ × ℝ))) (yaw0deg : ℝ)
    (s : AvState) : turn_loop source yaw0deg 0 s = Sum.inr s := rfl

theorem avoid_loop_zero (source : ℕ → Option (List (ℝ × ℝ × ℝ)))
    (target yaw0deg : ℝ) (s : AvState) :
    avoid_loop source target yaw0deg 0 s = (Outcome.fuelOut, s) := rfl

theorem avoid_loop_succ (source : ℕ → Option (List (ℝ × ℝ × ℝ)))
    (target yaw0deg : ℝ) (fuel : ℕ) (s : AvState) :
    avoid_loop source target yaw0deg (fuel+1) s =
      if s.moved < target then
        (if get_nearest_obstacle_distance_safe (source s.pollIdx) 6 < 3 then
          match turn_loop source yaw0deg 5 ⟨s.moved, s.pollIdx + 1, s.trace⟩ with
          | Sum.inl s2 => avoid_loop source target yaw0deg fuel s2
          | Sum.inr s2 => (Outcome.stuck s2.moved, s2)
        else
          avoid_loop source target yaw0deg fuel
            ⟨s.moved + min 1 (target - s.moved), s.pollIdx + 1,
             s.trace ++ [Cmd.advance (min 1 (target - s.moved))]⟩)
      else (Outcome.done s.moved, s) := rfl

theorem turn_loop_blocked (source : ℕ → Option (List (ℝ × ℝ × ℝ))) (yaw0deg : ℝ) :
    ∀ (n : ℕ) (s : AvState), 0 < n →
    (∀ k, get_nearest_obstacle_distance_safe (source k) 5 < 3) →
    turn_loop source yaw0deg n s =
      Sum.inr ⟨s.moved, s.pollIdx + n,
        s.trace ++ List.replicate n (Cmd.setYaw (yaw0deg + 30))⟩ := by
  intro n
  induction n with
  | zero => intro s h0; exact absurd h0 (lt_irrefl 0)
  | succ n ih =>
    intro s _ hall
    rw [turn_loop_succ, if_neg (not_le.mpr (hall s.pollIdx))]
    by_cases hn : n = 0
    · subst hn
      rw [if_pos rfl]
      simp
    · rw [if_neg hn, ih _ (Nat.pos_of_ne_zero hn) hall]
      simp only [Sum.inr.injEq, AvState.mk.injEq, true_and]
      refine ⟨by omega, ?_⟩
      rw [List.append_assoc, List.singleton_append, ← List.replicate_succ]

theorem stuck_run (source : ℕ → Option (List (ℝ × ℝ × ℝ))) (target yaw0deg : ℝ)
    (fuel : ℕ) (s : AvState)
    (hmv : s.moved < target)
    (houter : get_nearest_obstacle_distance_safe (source s.pollIdx) 6 < 3)
    (hinner : ∀ k, get_nearest_obstacle_distance_safe (source k) 5 < 3) :
    avoid_loop source target yaw0deg (fuel+1) s =
      (Outcome.stuck s.moved,
       ⟨s.moved, s.pollIdx + 6,
        s.trace ++ List.replicate 5 (Cmd.setYaw (yaw0deg + 30))⟩) := by
  rw [avoid_loop_succ, if_pos hmv, if_pos houter]
  rw [turn_loop_blocked source yaw0deg 5 ⟨s.moved, s.pollIdx + 1, s.trace⟩
    (by norm_num) hinner]

theorem nod_nil (mr : ℝ) (h : 0 ≤ mr) :
    get_nearest_obstacle_distance [] mr = mr := by
  rw [get_nearest_obstacle_distance, List.foldl_nil, Real.sqrt_mul_self h]

theorem nod_single_obstacle (mr : ℝ) (h : 1 < mr * mr) :
    get_nearest_obstacle_distance [((1:ℝ), 0, 0)] mr = 1 := by
  rw [get_nearest_obstacle_distance, List.foldl_cons, List.foldl_nil]
  have hstep : obstacle_step (mr*mr) ((1:ℝ), 0, 0) = 1 := by
    rw [obstacle_step, if_pos (by norm_num), if_pos (by simpa using h)]
    norm_num
  rw [hstep, Real.sqrt_one]

theorem alwaysObstacle_poll (k : ℕ) (mr : ℝ) (h : 1 < mr * mr) :
    get_nearest_obstacle_distance_safe (alwaysObstacleSource k) mr = 1 := by
  rw [show alwaysObstacleSource k = some [((1:ℝ), 0, 0)] from rfl]
  rw [show get_nearest_obstacle_distance_safe (some [((1:ℝ), 0, 0)]) mr =
    get_nearest_obstacle_distance [((1:ℝ), 0, 0)] mr from rfl]
  exact nod_single_obstacle mr h

/-- Claim C3: when every poll of the ranging source reports an obstacle
closer than the safety threshold (both at the outer poll's range 6 and the
turn loop's default range 5), `move_with_local_avoidance` reaches the stuck
outcome after exactly `MAX_YAW_ATTEMPTS = 5` turn attempts (the trace is
exactly five `set_yaw` commands), issues no reroute advance and no advancing
step, and reports a covered distance of exactly 0 m. -/
theorem c3_stuck_after_five (source : ℕ → Option (List (ℝ × ℝ × ℝ)))
    (target yaw0 : ℝ) (fuel : ℕ) (htarget : 0 < target)
    (hobs : ∀ k, get_nearest_obstacle_distance_safe (source k) 6 < 3 ∧
                 get_nearest_obstacle_distance_safe (source k) 5 < 3) :
    move_with_local_avoidance source target yaw0 (fuel+1) =
      (Outcome.stuck 0,
       ⟨0, 6, List.replicate 5 (Cmd.setYaw (yaw0 * 180 / 3.14159 + 30))⟩) ∧
    (move_with_local_avoidance source target yaw0 (fuel+1)).2.trace.countP isTurn = 5 ∧
    (move_with_local_avoidance source target yaw0 (fuel+1)).2.trace.countP isReroute = 0 ∧
    (move_with_local_avoidance source target yaw0 (fuel+1)).2.trace.countP isAdvance = 0 := by
  have hrun : move_with_local_avoidance source target yaw0 (fuel+1) =
      (Outcome.stuck 0,
       ⟨0, 6, List.replicate 5 (Cmd.setYaw (yaw0 * 180 / 3.14159 + 30))⟩) := by
    rw [move_with_local_avoidance]
    rw [stuck_run source target (yaw0 * 180 / 3.14159) fuel ⟨0, 0, []⟩
      (by simpa using htarget) (hobs 0).1 (fun k => (hobs k).2)]
    rfl
  refine ⟨hrun, ?_, ?_, ?_⟩ <;>
    · rw [hrun]
      rfl

/-- Witness for C3: the ranging source that always sees an obstacle point 1 m
ahead makes every poll report 1 m; with target 10 m and initial yaw 0 the
controller gets stuck at 0 m after exactly five turn commands. -/
theorem c3_stuck_after_five_witness :
    (0:ℝ) < 10 ∧
    move_with_local_avoidance alwaysObstacleSource 10 0 (0+1) =
      (Outcome.stuck 0,
       ⟨0, 6, List.replicate 5 (Cmd.setYaw ((0:ℝ) * 180 / 3.14159 + 30))⟩) := by
  have hobs : ∀ k, get_nearest_obstacle_distance_safe (alwaysObstacleSource k) 6 < 3 ∧
      get_nearest_obstacle_distance_safe (alwaysObstacleSource k) 5 < 3 := by
    intro k
    rw [alwaysObstacle_poll k 6 (by norm_num), alwaysObstacle_poll k 5 (by norm_num)]
    norm_num
  exact ⟨by norm_num,
    (c3_stuck_after_five alwaysObstacleSource 10 0 0 (by norm_num) hobs).1⟩

/-- Claim C6 (code bug): within one obstacle encounter the successive turn
attempts do **not** add a further 30° each: the source computes the current
yaw from `current_state`, a snapshot taken once before the loop, so every
`set_yaw` commands the same absolute heading `yaw0 + 30°`.  Concretely, with
initial yaw 0 and an ever-present obstacle, the whole trace is five identical
`set_yaw 30` commands — after the second attempt the commanded heading
differs from the heading held at obstacle detection by 30°, not the claimed
`2 × 30° = 60°`. -/
theorem c6_stale_heading_bug :
    (move_with_local_avoidance alwaysObstacleSource 10 0 (0+1)).2.trace =
      List.replicate 5 (Cmd.setYaw 30) ∧
    (Cmd.setYaw 30 ≠ Cmd.setYaw (0 + 2 * 30)) := by
  constructor
  · rw [move_with_local_avoidance]
    rw [stuck_run alwaysObstacleSource 10 ((0:ℝ) * 180 / 3.14159) 0 ⟨0, 0, []⟩
      (by norm_num)
      (by rw [alwaysObstacle_poll 0 6 (by norm_num)]; norm_num)
      (fun k => by rw [alwaysObstacle_poll k 5 (by norm_num)]; norm_num)]
    norm_num
  · intro hc
    injection hc with hc
    norm_num at hc

theorem advance_run (source : ℕ → Option (List (ℝ × ℝ × ℝ))) (target yaw0deg : ℝ)
    (hclear : ∀ k, 3 ≤ get_nearest_obstacle_distance_safe (source k) 6) :
    ∀ (n : ℕ) (s : AvState), s.moved ≤ target → Nat.ceil (target - s.moved) = n →
    avoid_loop source target yaw0deg (n+1) s =
      (Outcome.done target,
       ⟨target, s.pollIdx + n,
        s.trace ++ (List.range n).map
          (fun i : ℕ => Cmd.advance (min 1 (target - (s.moved + (i:ℝ)))))⟩) := by
  intro n
  induction n with
  | zero =>
    rintro ⟨m, k, tr⟩ hle hc
    dsimp only at hle hc ⊢
    have h0 : target - m ≤ 0 := Nat.ceil_eq_zero.mp hc
    have hm : m = target := le_antisymm hle (by linarith)
    rw [avoid_loop_succ]
    dsimp only
    rw [if_neg (not_lt.mpr (le_of_eq hm.symm))]
    rw [hm]
    simp
  | succ n ih =>
    rintro ⟨m, k, tr⟩ hle hc
    dsimp only at hle hc ⊢
    have hmlt : m < target := by
      have := Nat.ceil_pos.mp (by rw [hc]; exact Nat.succ_pos n)
      linarith
    rw [avoid_loop_succ]
    dsimp only
    rw [if_pos hmlt, if_neg (not_lt.mpr (hclear k))]
    rcases le_or_lt 1 (target - m) with hbig|hsmall
    · have hstep : min 1 (target - m) = 1 := min_eq_left hbig
      have h1 := (Nat.ceil_eq_iff (Nat.succ_ne_zero n)).mp hc
      simp only [Nat.succ_sub_one] at h1
      have hc' : Nat.ceil (target - (m + 1)) = n := by
        rcases Nat.eq_zero_or_pos n with hn|hn
        · subst hn
          rw [Nat.ceil_eq_zero]
          have := h1.2
          push_cast at this
          linarith
        · rw [Nat.ceil_eq_iff hn.ne']
          have hn1 : ((n - 1 : ℕ) : ℝ) = (n : ℝ) - 1 := by
            rw [Nat.cast_sub hn]
            norm_num
          constructor
          · rw [hn1]
            have := h1.1
            linarith
          · have := h1.2
            push_cast at this ⊢
            linarith
      rw [hstep]
      rw [ih ⟨m + 1, k + 1, tr ++ [Cmd.advance 1]⟩ (by dsimp only; linarith)
        (by dsimp only; exact hc')]
      dsimp only
      have hpoll : k + 1 + n = k + (n + 1) := by omega
      have htrace : (tr ++ [Cmd.advance 1]) ++ (List.range n).map
            (fun i : ℕ => Cmd.advance (min 1 (target - (m + 1 + (i:ℝ))))) =
          tr ++ (List.range (n+1)).map
            (fun i : ℕ => Cmd.advance (min 1 (target - (m + (i:ℝ))))) := by
        rw [List.append_assoc, List.singleton_append]
        congr 1
        rw [List.range_succ_eq_map, List.map_cons, List.map_map]
        congr 1
        · rw [Nat.cast_zero, add_zero]
          rw [min_eq_left hbig]
        · apply List.map_congr_left
          intro i _
          simp only [Function.comp_apply]
          congr 2
          push_cast
          ring
      rw [hpoll, htrace]
    · have hstep : min 1 (target - m) = target - m := min_eq_right hsmall.le
      have hn0 : n = 0 := by
        have h1 : Nat.ceil (target - m) ≤ 1 := by
          apply Nat.ceil_le.mpr
          push_cast
          linarith
        rw [hc] at h1
        omega
      subst hn0
      rw [hstep]
      rw [ih ⟨m + (target - m), k + 1, tr ++ [Cmd.advance (target - m)]⟩
        (by dsimp only; linarith)
        (by dsimp only; rw [Nat.ceil_eq_zero]; linarith)]
      dsimp only
      have htrace : (tr ++ [Cmd.advance (target - m)]) ++ (List.range 0).map
            (fun i : ℕ => Cmd.advance (min 1 (target - (m + (target - m) + (i:ℝ))))) =
          tr ++ (List.range 1).map
            (fun i : ℕ => Cmd.advance (min 1 (target - (m + (i:ℝ))))) := by
        rw [List.range_zero, List.map_nil, List.append_nil,
          show List.range 1 = [0] from rfl, List.map_cons, List.map_nil]
        congr 2
        rw [Nat.cast_zero, add_zero]
        rw [min_eq_right hsmall.le]
      rw [htrace]

theorem clear_run_init (source : ℕ → Option (List (ℝ × ℝ × ℝ)))
    (target yaw0deg : ℝ) (htarget : 0 ≤ target)
    (hclear : ∀ k, 3 ≤ get_nearest_obstacle_distance_safe (source k) 6) :
    avoid_loop source target yaw0deg (Nat.ceil target + 1) ⟨0, 0, []⟩ =
      (Outcome.done target,
       ⟨target, Nat.ceil target,
        (List.range (Nat.ceil target)).map
          (fun i : ℕ => Cmd.advance (min 1 (target - (i:ℝ))))⟩) := by
  rw [advance_run source target yaw0deg hclear (Nat.ceil target) ⟨0, 0, []⟩
    (by dsimp only; exact htarget) (by dsimp only; rw [sub_zero])]
  dsimp only
  have htrace : ([] : List Cmd) ++ (List.range (Nat.ceil target)).map
        (fun i : ℕ => Cmd.advance (min 1 (target - ((0:ℝ) + (i:ℝ))))) =
      (List.range (Nat.ceil target)).map
        (fun i : ℕ => Cmd.advance (min 1 (target - (i:ℝ)))) := by
    rw [List.nil_append]
    apply List.map_congr_left
    intro i _
    rw [zero_add]
  rw [htrace, Nat.zero_add]

/-- Claim C2: for `target_distance ≥ 0`, when every poll of the ranging
source reports a distance at least the safety threshold `3` m (no obstacle
anywhere, at both the outer poll's range 6 and the turn loop's range 5),
`move_with_local_avoidance` terminates in the done outcome after exactly
`⌈target / MOVE_STEP⌉ = ⌈target⌉` forward steps — the `i`-th commanding
`min 1 (target - i)`, so the last is bounded by the remaining distance — and
the accumulated advanced distance equals `target_distance` exactly. -/
theorem c2_clear_run (source : ℕ → Option (List (ℝ × ℝ × ℝ)))
    (target yaw0 : ℝ) (htarget : 0 ≤ target)
    (hclear : ∀ k, 3 ≤ get_nearest_obstacle_distance_safe (source k) 6 ∧
                   3 ≤ get_nearest_obstacle_distance_safe (source k) 5) :
    move_with_local_avoidance source target yaw0 (Nat.ceil target + 1) =
      (Outcome.done target,
       ⟨target, Nat.ceil target,
        (List.range (Nat.ceil target)).map
          (fun i : ℕ => Cmd.advance (min 1 (target - (i:ℝ))))⟩) := by
  rw [move_with_local_avoidance]
  exact clear_run_init source target (yaw0 * 180 / 3.14159) htarget
    (fun k => (hclear k).1)

/-- Witness for C2: with the empty-cloud source (every poll succeeds and sees
nothing) and `target = 2.5` m, the run finishes done at exactly `2.5` m after
`⌈2.5⌉ = 3` bounded forward steps. -/
theorem c2_clear_run_witness :
    (0:ℝ) ≤ 2.5 ∧
    move_with_local_avoidance emptyCloudSource 2.5 0 (Nat.ceil (2.5:ℝ) + 1) =
      (Outcome.done 2.5,
       ⟨2.5, Nat.ceil (2.5:ℝ),
        (List.range (Nat.ceil (2.5:ℝ))).map
          (fun i : ℕ => Cmd.advance (min 1 (2.5 - (i:ℝ))))⟩) := by
  have hclear : ∀ k, 3 ≤ get_nearest_obstacle_distance_safe (emptyCloudSource k) 6 ∧
      3 ≤ get_nearest_obstacle_distance_safe (emptyCloudSource k) 5 := by
    intro k
    constructor
    · rw [show get_nearest_obstacle_distance_safe (emptyCloudSource k) 6 =
        get_nearest_obstacle_distance [] 6 from rfl, nod_nil 6 (by norm_num)]
      norm_num
    · rw [show get_nearest_obstacle_distance_safe (emptyCloudSource k) 5 =
        get_nearest_obstacle_distance [] 5 from rfl, nod_nil 5 (by norm_num)]
      norm_num
  exact ⟨by norm_num, c2_clear_run emptyCloudSource 2.5 0 (by norm_num) hclear⟩

/-- Claim C5: a lidar query that raises makes `_get_nearest_obstacle_distance`
return the configured maximum range (it fails open, not closed), so the
avoidance loop treats every such poll as "no nearby obstacle" and continues
advancing: with a ranging source that always raises, the outer poll reads
`6 ≥ 3` every iteration and the run is the pure advancing run, finishing
done with the full target distance and no turn or reroute command. -/
theorem c5_fail_open (target yaw0 : ℝ) (htarget : 0 ≤ target) :
    (∀ max_range : ℝ, get_nearest_obstacle_distance_safe none max_range = max_range) ∧
    move_with_local_avoidance failSource target yaw0 (Nat.ceil target + 1) =
      (Outcome.done target,
       ⟨target, Nat.ceil target,
        (List.range (Nat.ceil target)).map
          (fun i : ℕ => Cmd.advance (min 1 (target - (i:ℝ))))⟩) := by
  constructor
  · intro max_range
    rfl
  · rw [move_with_local_avoidance]
    exact clear_run_init failSource target (yaw0 * 180 / 3.14159) htarget
      (fun k => by rw [show get_nearest_obstacle_distance_safe (failSource k) 6 = 6 from rfl]; norm_num)

/-- Witness for C5: at `max_range = 6` the failed read returns 6, and with
`target = 1` the always-failing source still completes the full 1 m. -/
theorem c5_fail_open_witness :
    (0:ℝ) ≤ 1 ∧
    ((∀ max_range : ℝ, get_nearest_obstacle_distance_safe none max_range = max_range) ∧
     move_with_local_avoidance failSource 1 0 (Nat.ceil (1:ℝ) + 1) =
      (Outcome.done 1,
       ⟨1, Nat.ceil (1:ℝ),
        (List.range (Nat.ceil (1:ℝ))).map
          (fun i : ℕ => Cmd.advance (min 1 (1 - (i:ℝ))))⟩)) :=
  ⟨by norm_num, c5_fail_open 1 0 (by norm_num)⟩

theorem advTotal_nil : advTotal [] = 0 := rfl

theorem advTotal_cons (c : Cmd) (l : List Cmd) :
    advTotal (c :: l) = advSize c + advTotal l := by
  rw [advTotal, advTotal, List.map_cons, List.sum_cons]

theorem advTotal_append (l1 l2 : List Cmd) :
    advTotal (l1 ++ l2) = advTotal l1 + advTotal l2 := by
  rw [advTotal, advTotal, advTotal, List.map_append, List.sum_append]

theorem forwardTotal_nil : forwardTotal [] = 0 := rfl

theorem forwardTotal_cons (c : Cmd) (l : List Cmd) :
    forwardTotal (c :: l) = forwardSize c + forwardTotal l := by
  rw [forwardTotal, forwardTotal, List.map_cons, List.sum_cons]

theorem forwardTotal_append (l1 l2 : List Cmd) :
    forwardTotal (l1 ++ l2) = forwardTotal l1 + forwardTotal l2 := by
  rw [forwardTotal, forwardTotal, forwardTotal, List.map_append, List.sum_append]

theorem turn_loop_inv (source : ℕ → Option (List (ℝ × ℝ × ℝ))) (yaw0deg : ℝ) :
    ∀ (n : ℕ) (s s' : AvState),
    (turn_loop source yaw0deg n s = Sum.inl s' ∨
     turn_loop source yaw0deg n s = Sum.inr s') →
    s'.moved = s.moved ∧
    ∃ l, s'.trace = s.trace ++ l ∧ advTotal l = 0 ∧
         forwardTotal l = 3 * ((l.countP isReroute : ℕ) : ℝ) := by
  intro n
  induction n with
  | zero =>
    intro s s' h
    rcases h with h|h
    · rw [turn_loop_zero] at h
      cases h
    · rw [turn_loop_zero] at h
      injection h with h
      subst h
      refine ⟨rfl, [], (List.append_nil s.trace).symm, rfl, ?_⟩
      simp [forwardTotal_nil]
  | succ n ih =>
    intro s s' h
    rw [turn_loop_succ] at h
    by_cases hd : 3 ≤ get_nearest_obstacle_distance_safe (source s.pollIdx) 5
    · rw [if_pos hd] at h
      rcases h with h|h
      · injection h with h
        subst h
        refine ⟨rfl, [Cmd.setYaw (yaw0deg + 30), Cmd.reroute 3], ?_, ?_, ?_⟩
        · rw [List.append_assoc, List.singleton_append]
        · rw [advTotal_cons, advTotal_cons, advTotal_nil]
          simp [advSize]
        · rw [forwardTotal_cons, forwardTotal_cons, forwardTotal_nil,
            show List.countP isReroute
              [Cmd.setYaw (yaw0deg + 30), Cmd.reroute 3] = 1 from rfl,
            show forwardSize (Cmd.setYaw (yaw0deg + 30)) = 0 from rfl,
            show forwardSize (Cmd.reroute 3) = 3 from rfl]
          norm_num
      · cases h
    · rw [if_neg hd] at h
      by_cases hn : n = 0
      · rw [if_pos hn] at h
        rcases h with h|h
        · cases h
        · injection h with h
          subst h
          refine ⟨rfl, [Cmd.setYaw (yaw0deg + 30)], rfl, ?_, ?_⟩
          · rw [advTotal_cons, advTotal_nil]
            simp [advSize]
          · rw [forwardTotal_cons, forwardTotal_nil,
              show List.countP isReroute [Cmd.setYaw (yaw0deg + 30)] = 0 from rfl,
              show forwardSize (Cmd.setYaw (yaw0deg + 30)) = 0 from rfl]
            norm_num
      · rw [if_neg hn] at h
        obtain ⟨hm, l, hl, ha, hf⟩ :=
          ih ⟨s.moved, s.pollIdx + 1, s.trace ++ [Cmd.setYaw (yaw0deg + 30)]⟩ s' h
        refine ⟨hm, Cmd.setYaw (yaw0deg + 30) :: l, ?_, ?_, ?_⟩
        · rw [hl]
          dsimp only
          rw [List.append_assoc, List.singleton_append]
        · rw [advTotal_cons, ha]
          simp [advSize]
        · have hcp : List.countP isReroute (Cmd.setYaw (yaw0deg + 30) :: l) =
              List.countP isReroute l :=
            List.countP_cons_of_neg _ _ (by simp [show isReroute (Cmd.setYaw (yaw0deg + 30)) = false from rfl])
          rw [forwardTotal_cons, hf, hcp,
            show forwardSize (Cmd.setYaw (yaw0deg + 30)) = 0 from rfl]
          norm_num

theorem c10_inv_aux (source : ℕ → Option (List (ℝ × ℝ × ℝ))) (target yaw0deg : ℝ) :
    ∀ (fuel : ℕ) (s : AvState), s.moved ≤ target →
    advTotal s.trace = s.moved →
    forwardTotal s.trace = s.moved + 3 * ((s.trace.countP isReroute : ℕ) : ℝ) →
    (avoid_loop source target yaw0deg fuel s).2.moved ≤ target ∧
    advTotal (avoid_loop source target yaw0deg fuel s).2.trace =
      (avoid_loop source target yaw0deg fuel s).2.moved ∧
    forwardTotal (avoid_loop source target yaw0deg fuel s).2.trace =
      (avoid_loop source target yaw0deg fuel s).2.moved +
        3 * ((((avoid_loop source target yaw0deg fuel s).2.trace.countP isReroute : ℕ)) : ℝ) ∧
    (∀ d, (avoid_loop source target yaw0deg fuel s).1 = Outcome.done d → d = target) := by
  intro fuel
  induction fuel with
  | zero =>
    intro s h1 h2 h3
    rw [avoid_loop_zero]
    exact ⟨h1, h2, h3, fun d hd => by cases hd⟩
  | succ fuel ih =>
    intro s h1 h2 h3
    rw [avoid_loop_succ]
    by_cases hmv : s.moved < target
    · rw [if_pos hmv]
      by_cases hd : get_nearest_obstacle_distance_safe (source s.pollIdx) 6 < 3
      · rw [if_pos hd]
        rcases htl : turn_loop source yaw0deg 5 ⟨s.moved, s.pollIdx + 1, s.trace⟩ with s2|s2
        · obtain ⟨hm, l, hl, ha, hf⟩ := turn_loop_inv source yaw0deg 5 _ s2 (Or.inl htl)
          refine ih s2 ?_ ?_ ?_
          · rw [hm]
            exact le_of_lt hmv
          · rw [hl, hm, advTotal_append]
            dsimp only
            rw [h2, ha, add_zero]
          · rw [hl, hm, forwardTotal_append, List.countP_append]
            dsimp only
            rw [h3, hf]
            push_cast
            ring
        · obtain ⟨hm, l, hl, ha, hf⟩ := turn_loop_inv source yaw0deg 5 _ s2 (Or.inr htl)
          refine ⟨?_, ?_, ?_, ?_⟩
          · rw [hm]
            exact le_of_lt hmv
          · show advTotal s2.trace = s2.moved
            rw [hl, hm, advTotal_append]
            dsimp only
            rw [h2, ha, add_zero]
          · show forwardTotal s2.trace =
              s2.moved + 3 * ((s2.trace.countP isReroute : ℕ) : ℝ)
            rw [hl, hm, forwardTotal_append, List.countP_append]
            dsimp only
            rw [h3, hf]
            push_cast
            ring
          · intro d hd'
            cases hd'
      · rw [if_neg hd]
        refine ih ⟨s.moved + min 1 (target - s.moved), s.pollIdx + 1,
          s.trace ++ [Cmd.advance (min 1 (target - s.moved))]⟩ ?_ ?_ ?_
        · dsimp only
          have := min_le_right 1 (target - s.moved)
          linarith
        · dsimp only
          rw [advTotal_append, h2, advTotal_cons, advTotal_nil,
            show advSize (Cmd.advance (min 1 (target - s.moved))) =
              min 1 (target - s.moved) from rfl]
          ring
        · dsimp only
          rw [forwardTotal_append, h3, forwardTotal_cons, forwardTotal_nil,
            show forwardSize (Cmd.advance (min 1 (target - s.moved))) =
              min 1 (target - s.moved) from rfl,
            List.countP_append,
            show List.countP isReroute
              [Cmd.advance (min 1 (target - s.moved))] = 0 from rfl]
          push_cast
          ring
    · rw [if_neg hmv]
      refine ⟨h1, h2, h3, ?_⟩
      intro d hd
      injection hd with hd
      rw [← hd]
      exact le_antisymm h1 (not_lt.mp hmv)

/-- Claim C10: over every ranging source, fuel and nonnegative target,
`distance_moved` is exactly the sum of the bounded advancing steps (the fixed
3 m reroute advances contribute nothing to it), it never exceeds the target,
a done outcome always reports exactly the target, and the total forward
motion actually commanded exceeds the reported distance by exactly 3 m per
reroute performed. -/
theorem c10_progress_invariant (source : ℕ → Option (List (ℝ × ℝ × ℝ)))
    (target yaw0 : ℝ) (fuel : ℕ) (htarget : 0 ≤ target) :
    (move_with_local_avoidance source target yaw0 fuel).2.moved ≤ target ∧
    advTotal (move_with_local_avoidance source target yaw0 fuel).2.trace =
      (move_with_local_avoidance source target yaw0 fuel).2.moved ∧
    forwardTotal (move_with_local_avoidance source target yaw0 fuel).2.trace =
      (move_with_local_avoidance source target yaw0 fuel).2.moved +
        3 * ((((move_with_local_avoidance source target yaw0 fuel).2.trace.countP
          isReroute : ℕ)) : ℝ) ∧
    (∀ d, (move_with_local_avoidance source target yaw0 fuel).1 = Outcome.done d →
      d = target) := by
  rw [move_with_local_avoidance]
  exact c10_inv_aux source target (yaw0 * 180 / 3.14159) fuel ⟨0, 0, []⟩ htarget rfl
    (by rw [forwardTotal_nil, List.countP_nil]; norm_num)

/-- Witness for C10: the invariant instantiated at the empty-cloud source,
target 1 m and fuel 2. -/
theorem c10_progress_invariant_witness :
    (0:ℝ) ≤ 1 ∧
    ((move_with_local_avoidance emptyCloudSource 1 0 2).2.moved ≤ 1 ∧
     advTotal (move_with_local_avoidance emptyCloudSource 1 0 2).2.trace =
       (move_with_local_avoidance emptyCloudSource 1 0 2).2.moved ∧
     forwardTotal (move_with_local_avoidance emptyCloudSource 1 0 2).2.trace =
       (move_with_local_avoidance emptyCloudSource 1 0 2).2.moved +
         3 * ((((move_with_local_avoidance emptyCloudSource 1 0 2).2.trace.countP
           isReroute : ℕ)) : ℝ) ∧
     (∀ d, (move_with_local_avoidance emptyCloudSource 1 0 2).1 = Outcome.done d →
       d = 1)) :=
  ⟨by norm_num, c10_progress_invariant emptyCloudSource 1 0 2 (by norm_num)⟩

/-- Witness for the amended C4: instantiated at the one-point cloud
`[(1, 0, 0)]` with maximum range 5. -/
theorem c4_nearest_obstacle_witness :
    (0:ℝ) ≤ 5 ∧
    (get_nearest_obstacle_distance [((1:ℝ), (0:ℝ), (0:ℝ))] 5 =
      (([((1:ℝ), (0:ℝ), (0:ℝ))].filter (fun p => decide (0.5 < p.1 ∧ |p.2.2| < 1))).map
        (fun p => Real.sqrt (p.1^2 + p.2.1^2))).foldr min 5 ∧
     (([((1:ℝ), (0:ℝ), (0:ℝ))].filter (fun p => decide (0.5 < p.1 ∧ |p.2.2| < 1))) = [] →
      get_nearest_obstacle_distance [((1:ℝ), (0:ℝ), (0:ℝ))] 5 = 5)) :=
  ⟨by norm_num, c4_nearest_obstacle [((1:ℝ), (0:ℝ), (0:ℝ))] 5 (by norm_num)⟩
